import Mathlib

/-!
Verification of the flowguard rate-limiting gateway.

This file is a shallow embedding of the admission-control core of the
repository: the Redis-backed counter store (`internal/storage/redis.go`),
the rate limiter (`internal/limiter`), and the authentication middleware.
Go wall-clock times are modelled by a calendar record (`GoTime`) together
with Go's `time.Date` normalization mapped to absolute seconds since
0001-01-01 00:00:00 UTC; the Redis store is modelled as a key/value map
with per-key time-to-live values and an explicit set of keys whose reads
or writes fail with a connection error (store unavailability).
-/

/-! ### Calendar arithmetic (Go `time` package, fixed location UTC) -/

/-- Gregorian leap-year rule, as in Go's `time` package. -/
def isLeap (y : Nat) : Bool := y % 4 == 0 && (y % 100 != 0 || y % 400 == 0)

/-- Days in a non-leap year strictly before 1-based month `m` —
Go's `daysBefore` table. -/
def daysBeforeMonth (m : Nat) : Nat :=
  [0, 31, 59, 90, 120, 151, 181, 212, 243, 273, 304, 334, 365].getD (m - 1) 0

/-- Days from 0001-01-01 to the start of year `y` (for `y ≥ 1`), per the
Gregorian rules implemented by Go's `daysSinceEpoch`. -/
def daysToYear (y : Nat) : Nat :=
  365 * (y - 1) + (y - 1) / 4 + (y - 1) / 400 - (y - 1) / 100

/-- Absolute second count (since 0001-01-01 00:00:00 UTC) of the instant
`time.Date(y, m, d, hh, mm, ss, 0, time.UTC)`.  This follows Go's `Date`
normalization: the month is folded into the year, while day, hour, minute
and second act as pure offsets onto the absolute timeline (Go normalizes
them into each other, but the resulting absolute instant is the same
linear combination).  Faithful for `y ≥ 1` and `m ≥ 1`, which holds at
every call site of the source. -/
def goDateAbs (y m d hh mm ss : Nat) : Nat :=
  let m1 := m - 1
  let y2 := y + m1 / 12
  let m2 := m1 % 12
  let days := daysToYear y2 + daysBeforeMonth (m2 + 1) +
    (if 3 ≤ m2 + 1 ∧ isLeap y2 then 1 else 0) + (d - 1)
  days * 86400 + hh * 3600 + mm * 60 + ss

/-- A Go `time.Time` in a fixed location, at second precision (nanoseconds
play no role in any of the modelled functions: every key and reset-time
computation discards them). -/
structure GoTime where
  year : Nat
  month : Nat
  day : Nat
  hour : Nat
  minute : Nat
  sec : Nat
deriving DecidableEq, Repr

/-- Absolute second count of a `GoTime`. -/
def GoTime.toAbs (t : GoTime) : Nat :=
  goDateAbs t.year t.month t.day t.hour t.minute t.sec

/-- Number of days of 1-based month `m` in year `y`. -/
def daysInMonth (y m : Nat) : Nat :=
  if m = 2 then (if isLeap y then 29 else 28)
  else [31, 28, 31, 30, 31, 30, 31, 31, 30, 31, 30, 31].getD (m - 1) 0

/-- A well-formed calendar time, as produced by Go's `time.Now()`. -/
def GoTime.Valid (t : GoTime) : Prop :=
  1 ≤ t.year ∧ 1 ≤ t.month ∧ t.month ≤ 12 ∧ 1 ≤ t.day ∧
    t.day ≤ daysInMonth t.year t.month ∧ t.hour < 24 ∧ t.minute < 60 ∧ t.sec < 60

instance (t : GoTime) : Decidable t.Valid := by
  unfold GoTime.Valid; infer_instance

/-! ### Decimal rendering (`fmt.Sprintf` verbs `%d` and `%02d`)

`%d` on a non-negative Go int is exactly `Nat.repr`.  To reason about key
collisions we relate `Nat.repr` to a fuel-free most-significant-digit-first
list of digit characters and prove it injective. -/

/-- Most-significant-first decimal digit characters of `n` (fuel-free
counterpart of `Nat.toDigits 10`). -/
def digitsOf (n : Nat) : List Char :=
  if h : n < 10 then [Nat.digitChar n]
  else digitsOf (n / 10) ++ [Nat.digitChar (n % 10)]
decreasing_by exact Nat.div_lt_self (by omega) (by omega)

theorem toDigitsCore_eq_digitsOf (f : Nat) :
    ∀ (n : Nat) (ds : List Char), n < f →
      Nat.toDigitsCore 10 f n ds = digitsOf n ++ ds := by
  induction f with
  | zero => intro n ds h; omega
  | succ f ih =>
    intro n ds h
    rw [Nat.toDigitsCore]
    by_cases h10 : n < 10
    · have hz : n / 10 = 0 := Nat.div_eq_of_lt h10
      have hm : n % 10 = n := Nat.mod_eq_of_lt h10
      simp only [hz, if_pos rfl, hm]
      rw [digitsOf]
      simp [h10]
    · have hpos : 0 < n := by omega
      have hlt : n / 10 < n := Nat.div_lt_self hpos (by omega)
      have hone : 1 ≤ n / 10 := by
        have h1 : 10 / 10 ≤ n / 10 := Nat.div_le_div_right (by omega)
        simpa using h1
      rw [if_neg (by omega)]
      rw [ih (n / 10) (Nat.digitChar (n % 10) :: ds) (by omega)]
      conv_rhs => rw [digitsOf]
      simp [h10]

/-- Fold a most-significant-first decimal digit-character list back into a
number (left inverse used to prove `Nat.repr` injective). -/
def parseDigits : List Char → Nat → Nat
  | [], acc => acc
  | c :: cs, acc => parseDigits cs (acc * 10 + (c.toNat - 48))

theorem parseDigits_append (l₁ l₂ : List Char) :
    ∀ acc, parseDigits (l₁ ++ l₂) acc = parseDigits l₂ (parseDigits l₁ acc) := by
  induction l₁ with
  | nil => intro acc; rfl
  | cons c cs ih =>
    intro acc
    rw [List.cons_append]
    simp only [parseDigits]
    exact ih _

theorem digitChar_toNat_sub (m : Nat) (h : m < 10) :
    (Nat.digitChar m).toNat - 48 = m := by
  revert h; revert m; decide

theorem parseDigits_digitsOf (n : Nat) :
    ∀ acc, parseDigits (digitsOf n) acc = acc * 10 ^ (digitsOf n).length + n := by
  induction n using Nat.strong_induction_on with
  | _ n ih =>
    intro acc
    by_cases h : n < 10
    · rw [digitsOf]
      simp only [h, dif_pos, List.length_singleton, pow_one, parseDigits]
      rw [digitChar_toNat_sub n h]
    · have hpos : 0 < n := by omega
      have hlt : n / 10 < n := Nat.div_lt_self hpos (by omega)
      rw [digitsOf]
      simp only [h, dif_neg, not_false_iff]
      rw [parseDigits_append, ih (n / 10) hlt acc]
      simp only [parseDigits, List.length_append, List.length_singleton]
      rw [digitChar_toNat_sub (n % 10) (Nat.mod_lt n (by omega))]
      have := Nat.div_add_mod n 10
      ring_nf
      omega

theorem digitsOf_inj {n m : Nat} (h : digitsOf n = digitsOf m) : n = m := by
  have hn := parseDigits_digitsOf n 0
  have hm := parseDigits_digitsOf m 0
  rw [h] at hn
  simp only [Nat.zero_mul] at hn hm
  omega

theorem natRepr_eq_digitsOf (n : Nat) : (Nat.repr n).data = digitsOf n := by
  show (Nat.toDigits 10 n).asString.data = digitsOf n
  rw [Nat.toDigits, toDigitsCore_eq_digitsOf (n + 1) n [] (by omega)]
  simp [List.asString]

theorem natRepr_inj {n m : Nat} (h : Nat.repr n = Nat.repr m) : n = m := by
  apply digitsOf_inj
  rw [← natRepr_eq_digitsOf, ← natRepr_eq_digitsOf, h]

/-- `fmt.Sprintf("%02d", n)` for a non-negative int: zero-pad to width 2. -/
def pad2 (n : Nat) : String :=
  if n < 10 then "0" ++ Nat.repr n else Nat.repr n

theorem digitsOf_lt_ten {n : Nat} (h : n < 10) : digitsOf n = [Nat.digitChar n] := by
  rw [digitsOf]; simp [h]

theorem digitsOf_two_digits {n : Nat} (h1 : 10 ≤ n) (h2 : n < 100) :
    digitsOf n = [Nat.digitChar (n / 10), Nat.digitChar (n % 10)] := by
  rw [digitsOf]
  have hq : n / 10 < 10 := by omega
  simp [show ¬ n < 10 by omega, digitsOf_lt_ten hq]

theorem pad2_data (n : Nat) (h : n < 100) :
    (pad2 n).data = if n < 10 then '0' :: digitsOf n else digitsOf n := by
  unfold pad2
  by_cases h10 : n < 10
  · simp only [h10, if_pos]
    rw [String.data_append, natRepr_eq_digitsOf]
    rfl
  · simp only [h10, if_neg, not_false_iff]
    exact natRepr_eq_digitsOf n

theorem pad2_length (n : Nat) (h : n < 100) : (pad2 n).data.length = 2 := by
  rw [pad2_data n h]
  by_cases h10 : n < 10
  · simp [h10, digitsOf_lt_ten h10]
  · simp [h10, digitsOf_two_digits (by omega) h]

theorem digitChar_ne_zero {m : Nat} (h1 : 1 ≤ m) (h2 : m < 10) :
    Nat.digitChar m ≠ '0' := by
  revert h2; revert h1; revert m; decide

theorem pad2_inj {a b : Nat} (ha : a < 100) (hb : b < 100)
    (h : (pad2 a).data = (pad2 b).data) : a = b := by
  rw [pad2_data a ha, pad2_data b hb] at h
  by_cases h1 : a < 10 <;> by_cases h2 : b < 10
  · simp only [h1, h2, if_pos] at h
    exact digitsOf_inj (List.cons_injective h)
  · simp only [h1, h2, if_pos, if_neg, not_false_iff] at h
    rw [digitsOf_lt_ten h1, digitsOf_two_digits (by omega) hb] at h
    have : '0' = Nat.digitChar (b / 10) := by
      simpa using congrArg (List.getD · 0 ' ') h
    exact absurd this.symm (digitChar_ne_zero (by omega) (by omega))
  · simp only [h1, h2, if_pos, if_neg, not_false_iff] at h
    rw [digitsOf_lt_ten h2, digitsOf_two_digits (by omega) ha] at h
    have : Nat.digitChar (a / 10) = '0' := by
      simpa using congrArg (List.getD · 0 ' ') h
    exact absurd this (digitChar_ne_zero (by omega) (by omega))
  · simp only [h1, h2, if_neg, not_false_iff] at h
    exact digitsOf_inj h

/-- Peel one trailing `%02d` field off two equal character streams. -/
theorem pad2_peel {a b : Nat} {l₁ l₂ : List Char} (ha : a < 100) (hb : b < 100)
    (h : l₁ ++ (pad2 a).data = l₂ ++ (pad2 b).data) : l₁ = l₂ ∧ a = b := by
  have hlen : (pad2 a).data.length = (pad2 b).data.length := by
    rw [pad2_length a ha, pad2_length b hb]
  obtain ⟨h1, h2⟩ := List.append_inj' h hlen
  exact ⟨h1, pad2_inj ha hb h2⟩

/-- Peel one trailing separator off two equal character streams. -/
theorem dash_peel {l₁ l₂ : List Char} (h : l₁ ++ ['-'] = l₂ ++ ['-']) : l₁ = l₂ :=
  (List.append_inj' h rfl).1

/-! ### The counter store (`internal/storage/redis.go`)

The Redis instance is modelled as an association list of keys to stored
string values, an association list of keys to their remaining time-to-live
in seconds, and a set (list) of keys whose store operations fail with a
connection error, modelling store unavailability for those keys. -/

/-- Result of a low-level Redis `GET`. -/
inductive GetResult where
  | nil
  | ok (v : String)
  | err (e : String)
deriving DecidableEq, Repr

/-- The modelled Redis store state. -/
structure Redis where
  kv : List (String × String)
  ttl : List (String × Nat)
  failing : List String
deriving DecidableEq, Repr

/-- Insert-or-replace in an association list. -/
def upsert (l : List (String × Nat)) (k : String) (v : Nat) : List (String × Nat) :=
  match l with
  | [] => [(k, v)]
  | (k', v') :: t => if k' = k then (k, v) :: t else (k', v') :: upsert t k v

/-- Insert-or-replace in the key/value map. -/
def upsertKV (l : List (String × String)) (k v : String) : List (String × String) :=
  match l with
  | [] => [(k, v)]
  | (k', v') :: t => if k' = k then (k, v) :: t else (k', v') :: upsertKV t k v

/-- Low-level Redis `GET`.  A Redis `GET` never mutates the store, so the
state is returned unchanged; a key in the failing set reports a connection
error, an absent key reports `redis.Nil`. -/
def redisGet (r : Redis) (key : String) : Redis × GetResult :=
  (r, if r.failing.contains key then .err "connection refused"
      else match r.kv.lookup key with
           | some v => .ok v
           | none => .nil)

/-- Go `strconv.Atoi`: an optional sign followed by one or more decimal
digits; anything else is an error (`none`). -/
def goAtoi (s : String) : Option Int :=
  match s.data with
  | [] => none
  | c :: cs =>
    let (neg, ds) : Bool × List Char :=
      if c = '-' then (true, cs) else if c = '+' then (false, cs) else (false, c :: cs)
    if ds = [] then none
    else if ds.all (fun d => '0' ≤ d ∧ d ≤ '9') then
      let n : Nat := ds.foldl (fun a d => a * 10 + (d.toNat - 48)) 0
      some (if neg then -(n : Int) else (n : Int))
    else none

/-- Low-level Redis pipeline `INCR key` + `EXPIRE key exp` (the pattern used
by both increment operations of `redis.go`).  On success the counter is
created at 1 or incremented, and — because the `EXPIRE` is issued
unconditionally in the pipeline — the key's time-to-live is (re)set to
`exp` seconds.  A key in the failing set reports a connection error and
leaves the state unchanged; a stored non-integer value makes the `INCR`
fail with a Redis error. -/
def redisIncrExpire (r : Redis) (key : String) (exp : Nat) : Redis × Except String Int :=
  if r.failing.contains key then (r, .error "connection refused")
  else
    match r.kv.lookup key with
    | none =>
      ({ r with kv := upsertKV r.kv key "1", ttl := upsert r.ttl key exp }, .ok 1)
    | some v =>
      match goAtoi v with
      | none => (r, .error "value is not an integer or out of range")
      | some n =>
        ({ r with kv := upsertKV r.kv key (toString (n + 1)), ttl := upsert r.ttl key exp },
          .ok (n + 1))

/-- Key of a per-window counter: `fmt.Sprintf("rate:%s:%s", apiKey, window)`. -/
def rateKey (apiKey window : String) : String :=
  "rate:" ++ apiKey ++ ":" ++ window

/-- The month bucket `fmt.Sprintf("%d-%02d", now.Year(), now.Month())`. -/
def monthBucket (now : GoTime) : String :=
  Nat.repr now.year ++ "-" ++ pad2 now.month

/-- Key of the monthly quota counter:
`fmt.Sprintf("quota:%s:%s", apiKey, monthKey)`. -/
def quotaKey (apiKey : String) (now : GoTime) : String :=
  "quota:" ++ apiKey ++ ":" ++ monthBucket now

/-- `RedisClient.IncrementRateLimit`: `INCR` the `(apiKey, window)` counter
and set its expiry to `time.Hour` — 3600 seconds — in one pipeline.  The
`limit` argument is only logged by the source. -/
def RedisClient.IncrementRateLimit (r : Redis) (apiKey window : String) (limit : Int) :
    Redis × Except String Int :=
  ((redisIncrExpire r (rateKey apiKey window) 3600).1,
    match (redisIncrExpire r (rateKey apiKey window) 3600).2 with
    | .error e => .error ("failed to increment rate limit: " ++ e)
    | .ok n => .ok n)

/-- `RedisClient.GetRateLimit`: read the `(apiKey, window)` counter;
`redis.Nil` (absent key) yields 0, a store error propagates, and a stored
value that `strconv.Atoi` cannot parse is an error. -/
def RedisClient.GetRateLimit (r : Redis) (apiKey window : String) :
    Redis × Except String Int :=
  (r, match (redisGet r (rateKey apiKey window)).2 with
      | .nil => .ok 0
      | .err e => .error ("failed to get rate limit: " ++ e)
      | .ok v =>
        match goAtoi v with
        | some n => .ok n
        | none => .error "failed to parse rate limit count")

/-- `RedisClient.IncrementMonthlyQuota`: `INCR` the month-bucket quota
counter and set its expiry to the duration from `now` until the first
instant of the next month, in one pipeline.  The `quota` argument is only
logged by the source. -/
def RedisClient.IncrementMonthlyQuota (r : Redis) (now : GoTime) (apiKey : String)
    (quota : Int) : Redis × Except String Int :=
  let exp := goDateAbs now.year (now.month + 1) 1 0 0 0 - now.toAbs
  ((redisIncrExpire r (quotaKey apiKey now) exp).1,
    match (redisIncrExpire r (quotaKey apiKey now) exp).2 with
    | .error e => .error ("failed to increment monthly quota: " ++ e)
    | .ok n => .ok n)

/-- `RedisClient.GetMonthlyQuota`: read the month-bucket quota counter;
absent key yields 0, a store error propagates, and an unparseable stored
value is an error. -/
def RedisClient.GetMonthlyQuota (r : Redis) (now : GoTime) (apiKey : String) :
    Redis × Except String Int :=
  (r, match (redisGet r (quotaKey apiKey now)).2 with
      | .nil => .ok 0
      | .err e => .error ("failed to get monthly quota: " ++ e)
      | .ok v =>
        match goAtoi v with
        | some n => .ok n
        | none => .error "failed to parse monthly quota count")

/-- `RedisClient.ValidateAPIKey`: any non-empty API key is valid; the store
is never consulted. -/
def RedisClient.ValidateAPIKey (r : Redis) (apiKey : String) :
    Redis × Except String Bool :=
  if apiKey = "" then (r, .ok false) else (r, .ok true)

/-! ### The admission engine (`internal/limiter`) -/

/-- `limiter.RateLimitConfig`.  Durations are in seconds. -/
structure RateLimitConfig where
  requestsPerMinute : Int
  requestsPerHour : Int
  requestsPerDay : Int
  monthlyQuota : Int
  windowSize : Nat
deriving DecidableEq, Repr

/-- `limiter.RateLimitResult`.  `resetTime` is the absolute second count of
the reset instant. -/
structure RateLimitResult where
  allowed : Bool
  remaining : Int
  resetTime : Nat
  limit : Int
  window : String
  quotaUsed : Int
  quotaLimit : Int
deriving DecidableEq, Repr

/-- One entry of the anonymous window-descriptor slice built inside
`CheckRateLimit`, `IncrementRateLimit` and `GetRateLimitInfo`. -/
structure WindowSpec where
  name : String
  limit : Int
  window : Nat
deriving DecidableEq, Repr

/-- The window-descriptor slice
`{{"minute", RequestsPerMinute, time.Minute}, {"hour", ..}, {"day", ..}}`,
identical in all three limiter methods. -/
def windowsFor (cfg : RateLimitConfig) : List WindowSpec :=
  [⟨"minute", cfg.requestsPerMinute, 60⟩,
   ⟨"hour", cfg.requestsPerHour, 3600⟩,
   ⟨"day", cfg.requestsPerDay, 86400⟩]

/-- `RateLimiter.getWindowKey`: the calendar bucket of `now` for the given
window duration (in seconds: `time.Minute` = 60, `time.Hour` = 3600,
`24 * time.Hour` = 86400). -/
def RateLimiter.getWindowKey (now : GoTime) (window : Nat) : String :=
  if window = 60 then
    Nat.repr now.year ++ "-" ++ pad2 now.month ++ "-" ++ pad2 now.day ++ "-" ++
      pad2 now.hour ++ "-" ++ pad2 now.minute
  else if window = 3600 then
    Nat.repr now.year ++ "-" ++ pad2 now.month ++ "-" ++ pad2 now.day ++ "-" ++
      pad2 now.hour
  else if window = 86400 then
    Nat.repr now.year ++ "-" ++ pad2 now.month ++ "-" ++ pad2 now.day
  else
    Int.repr (Int.tdiv ((now.toAbs : Int) - (goDateAbs 1970 1 1 0 0 0 : Int)) (window : Int))

/-- `RateLimiter.getWindowResetTime`: when the current window of `now`
resets, via Go's normalizing `time.Date` (minute + 1 / hour + 1 / day + 1,
lower fields zeroed). -/
def RateLimiter.getWindowResetTime (now : GoTime) (window : Nat) : Nat :=
  if window = 60 then
    goDateAbs now.year now.month now.day now.hour (now.minute + 1) 0
  else if window = 3600 then
    goDateAbs now.year now.month now.day (now.hour + 1) 0 0
  else if window = 86400 then
    goDateAbs now.year now.month (now.day + 1) 0 0 0
  else
    now.toAbs + window

/-- The `for _, w := range windows` loop of `RateLimiter.CheckRateLimit`:
read each window's current bucket counter in order; on a read error stop
with that error; on the first `current >= w.limit` stop with a deny
verdict for that window; otherwise fall through (`none`). -/
def checkWindowsLoop (r : Redis) (now : GoTime) (apiKey : String)
    (quotaUsed quotaLimit : Int) :
    List WindowSpec → Redis × Except String (Option RateLimitResult)
  | [] => (r, .ok none)
  | w :: ws =>
    let windowKey := RateLimiter.getWindowKey now w.window
    let res := RedisClient.GetRateLimit r apiKey windowKey
    match res.2 with
    | .error e =>
      (res.1, .error ("failed to get rate limit for " ++ w.name ++ " window: " ++ e))
    | .ok current =>
      if current ≥ w.limit then
        (res.1, .ok (some
          { allowed := false
            remaining := 0
            resetTime := RateLimiter.getWindowResetTime now w.window
            limit := w.limit
            window := w.name
            quotaUsed := quotaUsed
            quotaLimit := quotaLimit }))
      else checkWindowsLoop res.1 now apiKey quotaUsed quotaLimit ws

/-- `RateLimiter.CheckRateLimit`: monthly quota first (deny bound to the
`monthly` window with reset at `time.Date(Year, Month+1, 1, 0, 0, 0, 0)`),
then the minute/hour/day windows in order, and an allow verdict bound to
the minute window when everything passes. -/
def RateLimiter.CheckRateLimit (cfg : RateLimitConfig) (r : Redis) (now : GoTime)
    (apiKey : String) : Redis × Except String RateLimitResult :=
  let g := RedisClient.GetMonthlyQuota r now apiKey
  match g.2 with
  | .error e => (g.1, .error ("failed to get monthly quota: " ++ e))
  | .ok quotaUsed =>
    if quotaUsed ≥ cfg.monthlyQuota then
      (g.1, .ok
        { allowed := false
          remaining := 0
          resetTime := goDateAbs now.year (now.month + 1) 1 0 0 0
          limit := 0
          window := "monthly"
          quotaUsed := quotaUsed
          quotaLimit := cfg.monthlyQuota })
    else
      let res := checkWindowsLoop g.1 now apiKey quotaUsed cfg.monthlyQuota (windowsFor cfg)
      match res.2 with
      | .error e => (res.1, .error e)
      | .ok (some verdict) => (res.1, .ok verdict)
      | .ok none =>
        (res.1, .ok
          { allowed := true
            remaining := cfg.requestsPerMinute
            resetTime := RateLimiter.getWindowResetTime now 60
            limit := cfg.requestsPerMinute
            window := "minute"
            quotaUsed := quotaUsed
            quotaLimit := cfg.monthlyQuota })

/-- The `for _, w := range windows` loop of `RateLimiter.IncrementRateLimit`:
increment each window's bucket counter in order, stopping at the first
error. -/
def incWindowsLoop (r : Redis) (now : GoTime) (apiKey : String) :
    List WindowSpec → Redis × Option String
  | [] => (r, none)
  | w :: ws =>
    let windowKey := RateLimiter.getWindowKey now w.window
    let res := RedisClient.IncrementRateLimit r apiKey windowKey w.limit
    match res.2 with
    | .error e =>
      (res.1, some ("failed to increment rate limit for " ++ w.name ++ " window: " ++ e))
    | .ok _ => incWindowsLoop res.1 now apiKey ws

/-- `RateLimiter.IncrementRateLimit` (the commit step): increment the
monthly quota, then the minute, hour and day counters, in that order,
stopping at the first error; nothing already incremented is rolled back.
The first component of the result is the store state left behind, the
second is the returned error, if any. -/
def RateLimiter.IncrementRateLimit (cfg : RateLimitConfig) (r : Redis) (now : GoTime)
    (apiKey : String) : Redis × Option String :=
  let res := RedisClient.IncrementMonthlyQuota r now apiKey cfg.monthlyQuota
  match res.2 with
  | .error e => (res.1, some ("failed to increment monthly quota: " ++ e))
  | .ok _ => incWindowsLoop res.1 now apiKey (windowsFor cfg)

/-- One per-window entry of the `GetRateLimitInfo` report. -/
structure WindowInfo where
  current : Int
  limit : Int
  remaining : Int
  resetTime : Nat
deriving DecidableEq, Repr

/-- The `for _, w := range windows` loop of `RateLimiter.GetRateLimitInfo`:
read each window's counter in order and report name, current, limit,
remaining (`limit - current`) and reset time. -/
def infoWindowsLoop (r : Redis) (now : GoTime) (apiKey : String) :
    List WindowSpec → Redis × Except String (List (String × WindowInfo))
  | [] => (r, .ok [])
  | w :: ws =>
    let windowKey := RateLimiter.getWindowKey now w.window
    let res := RedisClient.GetRateLimit r apiKey windowKey
    match res.2 with
    | .error e =>
      (res.1, .error ("failed to get rate limit for " ++ w.name ++ " window: " ++ e))
    | .ok current =>
      let rest := infoWindowsLoop res.1 now apiKey ws
      match rest.2 with
      | .error e => (rest.1, .error e)
      | .ok l =>
        (rest.1, .ok ((w.name,
          { current := current
            limit := w.limit
            remaining := w.limit - current
            resetTime := RateLimiter.getWindowResetTime now w.window }) :: l))

/-- The `GetRateLimitInfo` report: monthly quota used/limit plus the
per-window entries. -/
structure RateLimitInfo where
  quotaUsed : Int
  quotaLimit : Int
  rateLimits : List (String × WindowInfo)
deriving DecidableEq, Repr

/-- `RateLimiter.GetRateLimitInfo`: read-only snapshot of quota usage and
all three window counters. -/
def RateLimiter.GetRateLimitInfo (cfg : RateLimitConfig) (r : Redis) (now : GoTime)
    (apiKey : String) : Redis × Except String RateLimitInfo :=
  let g := RedisClient.GetMonthlyQuota r now apiKey
  match g.2 with
  | .error e => (g.1, .error ("failed to get monthly quota: " ++ e))
  | .ok quotaUsed =>
    let res := infoWindowsLoop g.1 now apiKey (windowsFor cfg)
    match res.2 with
    | .error e => (res.1, .error e)
    | .ok l =>
      (res.1, .ok { quotaUsed := quotaUsed, quotaLimit := cfg.monthlyQuota, rateLimits := l })

/-! ### The authentication middleware (`internal/middleware/auth`) -/

/-- Outcome of `AuthMiddleware.Authenticate` for one request. -/
inductive AuthOutcome where
  | missingKey
  | validationError (e : String)
  | invalidKey
  | authenticated (k : String)
deriving DecidableEq, Repr

/-- `AuthMiddleware.Authenticate`, reduced to its decision: reject with 401
when the `X-API-Key` header is empty, reject with 500 when validation
errors, reject with 401 when the key is invalid, and otherwise store the
key in the context and continue. -/
def AuthMiddleware.Authenticate (r : Redis) (headerKey : String) : AuthOutcome :=
  if headerKey = "" then .missingKey
  else
    match (RedisClient.ValidateAPIKey r headerKey).2 with
    | .error e => .validationError e
    | .ok false => .invalidKey
    | .ok true => .authenticated headerKey

/-! ### Spec-side reference notions

These definitions follow the wording of the specification (calendar-aligned
bucket and reset instants), for comparison against the code-derived
computations above. -/

/-- Two times fall in the same calendar minute (spec notion). -/
def GoTime.sameMinute (t₁ t₂ : GoTime) : Prop :=
  t₁.year = t₂.year ∧ t₁.month = t₂.month ∧ t₁.day = t₂.day ∧
    t₁.hour = t₂.hour ∧ t₁.minute = t₂.minute

instance (t₁ t₂ : GoTime) : Decidable (t₁.sameMinute t₂) := by
  unfold GoTime.sameMinute; infer_instance

/-- Spec wording: the first instant of the calendar month after `t`. -/
def specStartOfNextMonth (t : GoTime) : Nat :=
  if t.month = 12 then goDateAbs (t.year + 1) 1 1 0 0 0
  else goDateAbs t.year (t.month + 1) 1 0 0 0

/-- Spec wording: the start of the calendar minute containing `t`
(seconds zeroed). -/
def specStartOfMinute (t : GoTime) : Nat :=
  goDateAbs t.year t.month t.day t.hour t.minute 0

/-- Spec wording: the start of the calendar hour containing `t`. -/
def specStartOfHour (t : GoTime) : Nat :=
  goDateAbs t.year t.month t.day t.hour 0 0

/-- Spec wording: the start of the calendar day containing `t`. -/
def specStartOfDay (t : GoTime) : Nat :=
  goDateAbs t.year t.month t.day 0 0 0

/-- The deny reset `time.Date(now.Year(), now.Month()+1, 1, 0, 0, 0, 0, loc)`
computed by the source is exactly the first instant of the next calendar
month, thanks to Go's month normalization (December + 1 rolls into January
of the next year). -/
theorem monthlyReset_eq_spec (t : GoTime) (h1 : 1 ≤ t.month) (h2 : t.month ≤ 12) :
    goDateAbs t.year (t.month + 1) 1 0 0 0 = specStartOfNextMonth t := by
  unfold specStartOfNextMonth
  by_cases h12 : t.month = 12
  · rw [if_pos h12, h12]
    unfold goDateAbs
    norm_num
  · rw [if_neg h12]

/-! ### Concrete fixtures for the closed witnesses -/

/-- Example policy `{minute:2, hour:100, day:1000, monthly:10000}`. -/
def cfgEx : RateLimitConfig :=
  { requestsPerMinute := 2, requestsPerHour := 100, requestsPerDay := 1000,
    monthlyQuota := 10000, windowSize := 60 }

/-- Example instant 2024-01-15 12:30:45. -/
def nowEx : GoTime :=
  { year := 2024, month := 1, day := 15, hour := 12, minute := 30, sec := 45 }

/-- A store in which caller `k` has exhausted the monthly quota. -/
def rExQuota : Redis :=
  { kv := [("quota:k:2024-01", "10000")], ttl := [], failing := [] }

/-! ### C1 -/

/-- C1: whenever the monthly quota read yields a value at or above the
configured monthly quota, `CheckRateLimit` returns — without error and
without consulting any window counter (the store is arbitrary elsewhere,
its minute/hour/day keys may even be failing) — a deny verdict with
`Allowed = false`, `Window = "monthly"`, `Limit = 0`, `Remaining = 0`,
`ResetTime` the first instant of the next calendar month, and
`QuotaUsed`/`QuotaLimit` populated. -/
theorem C1_monthly_quota_deny (cfg : RateLimitConfig) (r : Redis) (now : GoTime)
    (apiKey : String) (q : Int) (hv : now.Valid)
    (hq : (RedisClient.GetMonthlyQuota r now apiKey).2 = .ok q)
    (hge : q ≥ cfg.monthlyQuota) :
    RateLimiter.CheckRateLimit cfg r now apiKey =
      (r, .ok
        { allowed := false, remaining := 0,
          resetTime := specStartOfNextMonth now, limit := 0,
          window := "monthly", quotaUsed := q, quotaLimit := cfg.monthlyQuota }) := by
  obtain ⟨_, hm1, hm2, _⟩ := hv
  simp only [RateLimiter.CheckRateLimit]
  rw [hq]
  simp only [ge_iff_le, hge, if_pos]
  rw [monthlyReset_eq_spec now hm1 hm2]
  rfl

/-- Closed witness for C1 at a concrete store and policy. -/
theorem C1_monthly_quota_deny_witness :
    RateLimiter.CheckRateLimit cfgEx rExQuota nowEx "k" =
      (rExQuota, .ok
        { allowed := false, remaining := 0,
          resetTime := specStartOfNextMonth nowEx, limit := 0,
          window := "monthly", quotaUsed := 10000, quotaLimit := cfgEx.monthlyQuota }) :=
  C1_monthly_quota_deny cfgEx rExQuota nowEx "k" 10000 (by decide) rfl (by decide)

/-! ### C2 -/

theorem GetRateLimit_fst (r : Redis) (apiKey window : String) :
    (RedisClient.GetRateLimit r apiKey window).1 = r := rfl

theorem GetMonthlyQuota_fst (r : Redis) (now : GoTime) (apiKey : String) :
    (RedisClient.GetMonthlyQuota r now apiKey).1 = r := rfl

/-- C2: with the monthly quota not exhausted, the windows are evaluated in
the fixed order minute, hour, day, and the first window whose counter is at
or above its limit produces the deny verdict, the later windows never being
read (their keys are unconstrained — they may even be failing): a minute
violation yields a `"minute"` verdict whatever the hour/day state; an hour
violation (minute below limit) yields `"hour"`; a day violation (minute and
hour below limit) yields `"day"`.  Each deny carries `Remaining = 0`, the
window's limit and reset instant, and the quota fields from the quota
read. -/
theorem C2_window_priority (cfg : RateLimitConfig) (r : Redis) (now : GoTime)
    (apiKey : String) (q : Int)
    (hq : (RedisClient.GetMonthlyQuota r now apiKey).2 = .ok q)
    (hlt : q < cfg.monthlyQuota) :
    (∀ cm, (RedisClient.GetRateLimit r apiKey (RateLimiter.getWindowKey now 60)).2 = .ok cm →
      cm ≥ cfg.requestsPerMinute →
      RateLimiter.CheckRateLimit cfg r now apiKey =
        (r, .ok { allowed := false, remaining := 0,
                  resetTime := RateLimiter.getWindowResetTime now 60,
                  limit := cfg.requestsPerMinute, window := "minute",
                  quotaUsed := q, quotaLimit := cfg.monthlyQuota }))
    ∧ (∀ cm ch,
        (RedisClient.GetRateLimit r apiKey (RateLimiter.getWindowKey now 60)).2 = .ok cm →
        cm < cfg.requestsPerMinute →
        (RedisClient.GetRateLimit r apiKey (RateLimiter.getWindowKey now 3600)).2 = .ok ch →
        ch ≥ cfg.requestsPerHour →
        RateLimiter.CheckRateLimit cfg r now apiKey =
          (r, .ok { allowed := false, remaining := 0,
                    resetTime := RateLimiter.getWindowResetTime now 3600,
                    limit := cfg.requestsPerHour, window := "hour",
                    quotaUsed := q, quotaLimit := cfg.monthlyQuota }))
    ∧ (∀ cm ch cd,
        (RedisClient.GetRateLimit r apiKey (RateLimiter.getWindowKey now 60)).2 = .ok cm →
        cm < cfg.requestsPerMinute →
        (RedisClient.GetRateLimit r apiKey (RateLimiter.getWindowKey now 3600)).2 = .ok ch →
        ch < cfg.requestsPerHour →
        (RedisClient.GetRateLimit r apiKey (RateLimiter.getWindowKey now 86400)).2 = .ok cd →
        cd ≥ cfg.requestsPerDay →
        RateLimiter.CheckRateLimit cfg r now apiKey =
          (r, .ok { allowed := false, remaining := 0,
                    resetTime := RateLimiter.getWindowResetTime now 86400,
                    limit := cfg.requestsPerDay, window := "day",
                    quotaUsed := q, quotaLimit := cfg.monthlyQuota })) := by
  refine ⟨?_, ?_, ?_⟩
  · intro cm hm hge
    simp only [RateLimiter.CheckRateLimit]
    rw [hq]
    simp only [ge_iff_le, not_le.mpr hlt, if_false, windowsFor, checkWindowsLoop,
      GetRateLimit_fst, GetMonthlyQuota_fst]
    rw [hm]
    simp only [ge_iff_le, hge, if_pos]
  · intro cm ch hm hmlt hh hge
    simp only [RateLimiter.CheckRateLimit]
    rw [hq]
    simp only [ge_iff_le, not_le.mpr hlt, if_false, windowsFor, checkWindowsLoop,
      GetRateLimit_fst, GetMonthlyQuota_fst]
    rw [hm]
    simp only [ge_iff_le, not_le.mpr hmlt, if_false]
    rw [hh]
    simp only [ge_iff_le, hge, if_pos]
  · intro cm ch cd hm hmlt hh hhlt hd hge
    simp only [RateLimiter.CheckRateLimit]
    rw [hq]
    simp only [ge_iff_le, not_le.mpr hlt, if_false, windowsFor, checkWindowsLoop,
      GetRateLimit_fst, GetMonthlyQuota_fst]
    rw [hm]
    simp only [ge_iff_le, not_le.mpr hmlt, if_false]
    rw [hh]
    simp only [ge_iff_le, not_le.mpr hhlt, if_false]
    rw [hd]
    simp only [ge_iff_le, hge, if_pos]

/-- A store in which caller `k`'s minute bucket for `nowEx` is exhausted
while the hour and day buckets cannot even be read (failing keys): the
minute verdict proves they are never consulted. -/
def rExMinute : Redis :=
  { kv := [("rate:k:2024-01-15-12-30", "2")], ttl := [],
    failing := ["rate:k:2024-01-15-12", "rate:k:2024-01-15"] }

/-- Closed witness for C2: minute exhausted, hour/day unreadable, verdict
bound to `"minute"`. -/
theorem C2_window_priority_witness :
    RateLimiter.CheckRateLimit cfgEx rExMinute nowEx "k" =
      (rExMinute, .ok { allowed := false, remaining := 0,
                        resetTime := RateLimiter.getWindowResetTime nowEx 60,
                        limit := cfgEx.requestsPerMinute, window := "minute",
                        quotaUsed := 0, quotaLimit := cfgEx.monthlyQuota }) :=
  (C2_window_priority cfgEx rExMinute nowEx "k" 0 rfl (by decide)).1 2 rfl (by decide)

/-! ### C4 -/

/-- The source's minute reset `time.Date(Y, M, D, h, m+1, 0, 0)` is the
start of the next calendar minute. -/
theorem minuteReset_eq_spec (t : GoTime) :
    RateLimiter.getWindowResetTime t 60 = specStartOfMinute t + 60 := by
  simp only [RateLimiter.getWindowResetTime, specStartOfMinute, goDateAbs, if_pos]
  ring

/-- The source's hour reset `time.Date(Y, M, D, h+1, 0, 0, 0)` is the start
of the next calendar hour. -/
theorem hourReset_eq_spec (t : GoTime) :
    RateLimiter.getWindowResetTime t 3600 = specStartOfHour t + 3600 := by
  simp only [RateLimiter.getWindowResetTime, specStartOfHour, goDateAbs]
  norm_num
  ring

/-- The source's day reset `time.Date(Y, M, D+1, 0, 0, 0, 0)` is the start
of the next calendar day (Go's `Date` folds a day overflowing the month
into the absolute timeline). -/
theorem dayReset_eq_spec (t : GoTime) (hd : 1 ≤ t.day) :
    RateLimiter.getWindowResetTime t 86400 = specStartOfDay t + 86400 := by
  simp only [RateLimiter.getWindowResetTime, specStartOfDay, goDateAbs]
  norm_num
  omega

/-- C4: when the monthly quota and all three window counters are strictly
below their limits, `CheckRateLimit` returns an allow verdict bound to the
minute window, whose `Remaining` is the static configured per-minute limit
(not `limit - count`: the counters read are arbitrary below the limit),
whose `ResetTime` is the start of the next calendar minute, and whose
quota fields are populated. -/
theorem C4_allow_verdict (cfg : RateLimitConfig) (r : Redis) (now : GoTime)
    (apiKey : String) (q cm ch cd : Int)
    (hq : (RedisClient.GetMonthlyQuota r now apiKey).2 = .ok q)
    (hqlt : q < cfg.monthlyQuota)
    (hm : (RedisClient.GetRateLimit r apiKey (RateLimiter.getWindowKey now 60)).2 = .ok cm)
    (hmlt : cm < cfg.requestsPerMinute)
    (hh : (RedisClient.GetRateLimit r apiKey (RateLimiter.getWindowKey now 3600)).2 = .ok ch)
    (hhlt : ch < cfg.requestsPerHour)
    (hd : (RedisClient.GetRateLimit r apiKey (RateLimiter.getWindowKey now 86400)).2 = .ok cd)
    (hdlt : cd < cfg.requestsPerDay) :
    RateLimiter.CheckRateLimit cfg r now apiKey =
      (r, .ok { allowed := true, remaining := cfg.requestsPerMinute,
                resetTime := specStartOfMinute now + 60,
                limit := cfg.requestsPerMinute, window := "minute",
                quotaUsed := q, quotaLimit := cfg.monthlyQuota }) := by
  simp only [RateLimiter.CheckRateLimit]
  rw [hq]
  simp only [ge_iff_le, not_le.mpr hqlt, if_false, windowsFor, checkWindowsLoop,
    GetRateLimit_fst, GetMonthlyQuota_fst]
  rw [hm]
  simp only [ge_iff_le, not_le.mpr hmlt, if_false]
  rw [hh]
  simp only [ge_iff_le, not_le.mpr hhlt, if_false]
  rw [hd]
  simp only [ge_iff_le, not_le.mpr hdlt, if_false]
  rw [minuteReset_eq_spec]

/-- The empty store: no counters, nothing failing. -/
def rExEmpty : Redis := { kv := [], ttl := [], failing := [] }

/-- Closed witness for C4 on the empty store: everything reads 0 and the
verdict is allow. -/
theorem C4_allow_verdict_witness :
    RateLimiter.CheckRateLimit cfgEx rExEmpty nowEx "k" =
      (rExEmpty, .ok { allowed := true, remaining := cfgEx.requestsPerMinute,
                       resetTime := specStartOfMinute nowEx + 60,
                       limit := cfgEx.requestsPerMinute, window := "minute",
                       quotaUsed := 0, quotaLimit := cfgEx.monthlyQuota }) :=
  C4_allow_verdict cfgEx rExEmpty nowEx "k" 0 0 0 0 rfl (by decide) rfl (by decide)
    rfl (by decide) rfl (by decide)

/-! ### C6 -/

/-- C6: every store read that `CheckRateLimit` actually performs and that
fails (its key is in the failing set) makes `CheckRateLimit` return an
error and no verdict: a failing monthly-quota key always errors; a failing
minute key errors once the quota read passed; a failing hour key errors
once quota and minute passed; a failing day key errors once quota, minute
and hour passed.  No branch substitutes 0 or "unlimited" for the
unreadable counter. -/
theorem C6_fail_closed (cfg : RateLimitConfig) (r : Redis) (now : GoTime)
    (apiKey : String) :
    (quotaKey apiKey now ∈ r.failing →
      ∃ e, (RateLimiter.CheckRateLimit cfg r now apiKey).2 = .error e)
    ∧ (∀ q, (RedisClient.GetMonthlyQuota r now apiKey).2 = .ok q →
        q < cfg.monthlyQuota →
        rateKey apiKey (RateLimiter.getWindowKey now 60) ∈ r.failing →
        ∃ e, (RateLimiter.CheckRateLimit cfg r now apiKey).2 = .error e)
    ∧ (∀ q cm, (RedisClient.GetMonthlyQuota r now apiKey).2 = .ok q →
        q < cfg.monthlyQuota →
        (RedisClient.GetRateLimit r apiKey (RateLimiter.getWindowKey now 60)).2 = .ok cm →
        cm < cfg.requestsPerMinute →
        rateKey apiKey (RateLimiter.getWindowKey now 3600) ∈ r.failing →
        ∃ e, (RateLimiter.CheckRateLimit cfg r now apiKey).2 = .error e)
    ∧ (∀ q cm ch, (RedisClient.GetMonthlyQuota r now apiKey).2 = .ok q →
        q < cfg.monthlyQuota →
        (RedisClient.GetRateLimit r apiKey (RateLimiter.getWindowKey now 60)).2 = .ok cm →
        cm < cfg.requestsPerMinute →
        (RedisClient.GetRateLimit r apiKey (RateLimiter.getWindowKey now 3600)).2 = .ok ch →
        ch < cfg.requestsPerHour →
        rateKey apiKey (RateLimiter.getWindowKey now 86400) ∈ r.failing →
        ∃ e, (RateLimiter.CheckRateLimit cfg r now apiKey).2 = .error e) := by
  refine ⟨?_, ?_, ?_, ?_⟩
  · intro hf
    have hq : (RedisClient.GetMonthlyQuota r now apiKey).2 =
        .error "failed to get monthly quota: connection refused" := by
      simp [RedisClient.GetMonthlyQuota, redisGet, hf]
    simp only [RateLimiter.CheckRateLimit]
    rw [hq]
    exact ⟨_, rfl⟩
  · intro q hq hlt hf
    have hm : (RedisClient.GetRateLimit r apiKey (RateLimiter.getWindowKey now 60)).2 =
        .error "failed to get rate limit: connection refused" := by
      simp [RedisClient.GetRateLimit, redisGet, hf]
    simp only [RateLimiter.CheckRateLimit]
    rw [hq]
    simp only [ge_iff_le, not_le.mpr hlt, if_false, windowsFor, checkWindowsLoop,
      GetRateLimit_fst, GetMonthlyQuota_fst]
    rw [hm]
    exact ⟨_, rfl⟩
  · intro q cm hq hlt hm hmlt hf
    have hh : (RedisClient.GetRateLimit r apiKey (RateLimiter.getWindowKey now 3600)).2 =
        .error "failed to get rate limit: connection refused" := by
      simp [RedisClient.GetRateLimit, redisGet, hf]
    simp only [RateLimiter.CheckRateLimit]
    rw [hq]
    simp only [ge_iff_le, not_le.mpr hlt, if_false, windowsFor, checkWindowsLoop,
      GetRateLimit_fst, GetMonthlyQuota_fst]
    rw [hm]
    simp only [ge_iff_le, not_le.mpr hmlt, if_false]
    rw [hh]
    exact ⟨_, rfl⟩
  · intro q cm ch hq hlt hm hmlt hh hhlt hf
    have hd : (RedisClient.GetRateLimit r apiKey (RateLimiter.getWindowKey now 86400)).2 =
        .error "failed to get rate limit: connection refused" := by
      simp [RedisClient.GetRateLimit, redisGet, hf]
    simp only [RateLimiter.CheckRateLimit]
    rw [hq]
    simp only [ge_iff_le, not_le.mpr hlt, if_false, windowsFor, checkWindowsLoop,
      GetRateLimit_fst, GetMonthlyQuota_fst]
    rw [hm]
    simp only [ge_iff_le, not_le.mpr hmlt, if_false]
    rw [hh]
    simp only [ge_iff_le, not_le.mpr hhlt, if_false]
    rw [hd]
    exact ⟨_, rfl⟩

/-- A store whose monthly-quota key for `k` at `nowEx` is unreadable. -/
def rExFailQuota : Redis :=
  { kv := [], ttl := [], failing := ["quota:k:2024-01"] }

/-- Closed witness for C6: with the quota key failing, `CheckRateLimit`
errors out rather than producing a verdict. -/
theorem C6_fail_closed_witness :
    ∃ e, (RateLimiter.CheckRateLimit cfgEx rExFailQuota nowEx "k").2 = .error e :=
  (C6_fail_closed cfgEx rExFailQuota nowEx "k").1 (by decide)

/-! ### C8 -/

/-- C8: a readable (non-failing) counter key that is absent reads as 0 with
no error, both for window counters and the monthly quota; a readable key
holding a string `strconv.Atoi` cannot parse is reported as a parse error,
never coerced to 0 or any other count. -/
theorem C8_read_semantics (r : Redis) (apiKey window : String) (now : GoTime) :
    (rateKey apiKey window ∉ r.failing →
      r.kv.lookup (rateKey apiKey window) = none →
      (RedisClient.GetRateLimit r apiKey window).2 = .ok 0)
    ∧ (∀ v, rateKey apiKey window ∉ r.failing →
        r.kv.lookup (rateKey apiKey window) = some v → goAtoi v = none →
        (RedisClient.GetRateLimit r apiKey window).2 =
          .error "failed to parse rate limit count")
    ∧ (quotaKey apiKey now ∉ r.failing →
        r.kv.lookup (quotaKey apiKey now) = none →
        (RedisClient.GetMonthlyQuota r now apiKey).2 = .ok 0)
    ∧ (∀ v, quotaKey apiKey now ∉ r.failing →
        r.kv.lookup (quotaKey apiKey now) = some v → goAtoi v = none →
        (RedisClient.GetMonthlyQuota r now apiKey).2 =
          .error "failed to parse monthly quota count") := by
  refine ⟨?_, ?_, ?_, ?_⟩
  · intro hf hlk
    simp [RedisClient.GetRateLimit, redisGet, hf, hlk]
  · intro v hf hlk hbad
    simp [RedisClient.GetRateLimit, redisGet, hf, hlk, hbad]
  · intro hf hlk
    simp [RedisClient.GetMonthlyQuota, redisGet, hf, hlk]
  · intro v hf hlk hbad
    simp [RedisClient.GetMonthlyQuota, redisGet, hf, hlk, hbad]

/-- A store holding a corrupt (non-integer) value under `k`'s minute key. -/
def rExBad : Redis :=
  { kv := [("rate:k:2024-01-15-12-30", "garbage")], ttl := [], failing := [] }

/-- Closed witness for C8: on `rExBad` an absent hour key reads 0 and the
corrupt minute key yields a parse error. -/
theorem C8_read_semantics_witness :
    (RedisClient.GetRateLimit rExBad "k" "2024-01-15-12").2 = .ok 0 ∧
      (RedisClient.GetRateLimit rExBad "k" "2024-01-15-12-30").2 =
        .error "failed to parse rate limit count" :=
  ⟨(C8_read_semantics rExBad "k" "2024-01-15-12" nowEx).1 (by decide) rfl,
   (C8_read_semantics rExBad "k" "2024-01-15-12-30" nowEx).2.1 "garbage" (by decide)
     rfl rfl⟩

/-! ### C5 -/

/-- C5: the commit performs its four increments in the fixed order monthly
quota, minute, hour, day.  If any increment fails, the error is returned
at once: the store is left exactly as the failing step left it — the
already-applied increments stay (no rollback) and the later increments are
never attempted.  If all four succeed the commit returns success with all
four applied. -/
theorem C5_commit_order (cfg : RateLimitConfig) (r : Redis) (now : GoTime)
    (apiKey : String) :
    (∀ r₁ e,
      RedisClient.IncrementMonthlyQuota r now apiKey cfg.monthlyQuota = (r₁, .error e) →
      RateLimiter.IncrementRateLimit cfg r now apiKey =
        (r₁, some ("failed to increment monthly quota: " ++ e)))
    ∧ (∀ r₁ v₁ r₂ e,
        RedisClient.IncrementMonthlyQuota r now apiKey cfg.monthlyQuota = (r₁, .ok v₁) →
        RedisClient.IncrementRateLimit r₁ apiKey (RateLimiter.getWindowKey now 60)
          cfg.requestsPerMinute = (r₂, .error e) →
        RateLimiter.IncrementRateLimit cfg r now apiKey =
          (r₂, some ("failed to increment rate limit for minute window: " ++ e)))
    ∧ (∀ r₁ v₁ r₂ v₂ r₃ e,
        RedisClient.IncrementMonthlyQuota r now apiKey cfg.monthlyQuota = (r₁, .ok v₁) →
        RedisClient.IncrementRateLimit r₁ apiKey (RateLimiter.getWindowKey now 60)
          cfg.requestsPerMinute = (r₂, .ok v₂) →
        RedisClient.IncrementRateLimit r₂ apiKey (RateLimiter.getWindowKey now 3600)
          cfg.requestsPerHour = (r₃, .error e) →
        RateLimiter.IncrementRateLimit cfg r now apiKey =
          (r₃, some ("failed to increment rate limit for hour window: " ++ e)))
    ∧ (∀ r₁ v₁ r₂ v₂ r₃ v₃ r₄ e,
        RedisClient.IncrementMonthlyQuota r now apiKey cfg.monthlyQuota = (r₁, .ok v₁) →
        RedisClient.IncrementRateLimit r₁ apiKey (RateLimiter.getWindowKey now 60)
          cfg.requestsPerMinute = (r₂, .ok v₂) →
        RedisClient.IncrementRateLimit r₂ apiKey (RateLimiter.getWindowKey now 3600)
          cfg.requestsPerHour = (r₃, .ok v₃) →
        RedisClient.IncrementRateLimit r₃ apiKey (RateLimiter.getWindowKey now 86400)
          cfg.requestsPerDay = (r₄, .error e) →
        RateLimiter.IncrementRateLimit cfg r now apiKey =
          (r₄, some ("failed to increment rate limit for day window: " ++ e)))
    ∧ (∀ r₁ v₁ r₂ v₂ r₃ v₃ r₄ v₄,
        RedisClient.IncrementMonthlyQuota r now apiKey cfg.monthlyQuota = (r₁, .ok v₁) →
        RedisClient.IncrementRateLimit r₁ apiKey (RateLimiter.getWindowKey now 60)
          cfg.requestsPerMinute = (r₂, .ok v₂) →
        RedisClient.IncrementRateLimit r₂ apiKey (RateLimiter.getWindowKey now 3600)
          cfg.requestsPerHour = (r₃, .ok v₃) →
        RedisClient.IncrementRateLimit r₃ apiKey (RateLimiter.getWindowKey now 86400)
          cfg.requestsPerDay = (r₄, .ok v₄) →
        RateLimiter.IncrementRateLimit cfg r now apiKey = (r₄, none)) := by
  refine ⟨?_, ?_, ?_, ?_, ?_⟩
  · intro r₁ e h₁
    simp only [RateLimiter.IncrementRateLimit]
    rw [h₁]
  · intro r₁ v₁ r₂ e h₁ h₂
    simp only [RateLimiter.IncrementRateLimit, windowsFor, incWindowsLoop]
    rw [h₁]
    simp only
    rw [h₂]
    rfl
  · intro r₁ v₁ r₂ v₂ r₃ e h₁ h₂ h₃
    simp only [RateLimiter.IncrementRateLimit, windowsFor, incWindowsLoop]
    rw [h₁]
    simp only
    rw [h₂]
    simp only
    rw [h₃]
    rfl
  · intro r₁ v₁ r₂ v₂ r₃ v₃ r₄ e h₁ h₂ h₃ h₄
    simp only [RateLimiter.IncrementRateLimit, windowsFor, incWindowsLoop]
    rw [h₁]
    simp only
    rw [h₂]
    simp only
    rw [h₃]
    simp only
    rw [h₄]
    rfl
  · intro r₁ v₁ r₂ v₂ r₃ v₃ r₄ v₄ h₁ h₂ h₃ h₄
    simp only [RateLimiter.IncrementRateLimit, windowsFor, incWindowsLoop]
    rw [h₁]
    simp only
    rw [h₂]
    simp only
    rw [h₃]
    simp only
    rw [h₄]

/-- A store on which `k`'s minute counter key cannot be written. -/
def rExFailMinute : Redis :=
  { kv := [], ttl := [], failing := ["rate:k:2024-01-15-12-30"] }

/-- The state `rExFailMinute` reaches after the monthly-quota increment
alone: quota counter created at 1 with its expiry set to the seconds left
until 2024-02-01 00:00:00. -/
def rExAfterQuota : Redis :=
  { kv := [("quota:k:2024-01", "1")], ttl := [("quota:k:2024-01", 1423755)],
    failing := ["rate:k:2024-01-15-12-30"] }

/-- Closed witness for C5: the monthly increment succeeds, the minute
increment fails, the commit reports the minute error and leaves the
applied quota increment in place. -/
theorem C5_commit_order_witness :
    RateLimiter.IncrementRateLimit cfgEx rExFailMinute nowEx "k" =
      (rExAfterQuota,
        some ("failed to increment rate limit for minute window: " ++
          "failed to increment rate limit: connection refused")) :=
  (C5_commit_order cfgEx rExFailMinute nowEx "k").2.1 rExAfterQuota 1 rExAfterQuota
    "failed to increment rate limit: connection refused" rfl rfl

/-! ### C3

`RedisClient.IncrementRateLimit` pipelines `INCR key` with
`EXPIRE key, time.Hour`: the expiry is the fixed constant 3600 seconds for
every window.  That covers the minute (60 s) and hour (3600 s) windows but
is strictly below the day window's 86400-second duration, so a day bucket
becomes unreadable (expires) an hour after its last increment, contradicting
the claimed invariant `expiry ≥ window duration`. -/

/-- C3 (refuted by the code — code bug): after a commit on the empty store,
each of the three window counters carries a 3600-second expiry; for the
day window the duration is 86400 seconds, so the expiry set is strictly
below the window duration. -/
theorem C3_day_expiry_bug :
    ((RateLimiter.IncrementRateLimit cfgEx rExEmpty nowEx "k").1.ttl.lookup
        (rateKey "k" (RateLimiter.getWindowKey nowEx 60)) = some 3600)
    ∧ ((RateLimiter.IncrementRateLimit cfgEx rExEmpty nowEx "k").1.ttl.lookup
        (rateKey "k" (RateLimiter.getWindowKey nowEx 3600)) = some 3600)
    ∧ ((RateLimiter.IncrementRateLimit cfgEx rExEmpty nowEx "k").1.ttl.lookup
        (rateKey "k" (RateLimiter.getWindowKey nowEx 86400)) = some 3600)
    ∧ (windowsFor cfgEx).map WindowSpec.window = [60, 3600, 86400]
    ∧ 3600 < 86400 := by
  refine ⟨rfl, rfl, rfl, rfl, by omega⟩

/-! ### C9 -/

theorem checkWindowsLoop_fst (now : GoTime) (apiKey : String) (qU qL : Int) :
    ∀ (ws : List WindowSpec) (r : Redis),
      (checkWindowsLoop r now apiKey qU qL ws).1 = r := by
  intro ws
  induction ws with
  | nil => intro r; rfl
  | cons w t ih =>
    intro r
    simp only [checkWindowsLoop]
    cases h : (RedisClient.GetRateLimit r apiKey (RateLimiter.getWindowKey now w.window)).2 with
    | error e => rfl
    | ok c =>
      by_cases hc : c ≥ w.limit
      · simp only [ge_iff_le, hc, if_pos]
        rfl
      · simp only [ge_iff_le, not_le.mpr (not_le.mp hc), if_false]
        exact ih r

theorem infoWindowsLoop_fst (now : GoTime) (apiKey : String) :
    ∀ (ws : List WindowSpec) (r : Redis),
      (infoWindowsLoop r now apiKey ws).1 = r := by
  intro ws
  induction ws with
  | nil => intro r; rfl
  | cons w t ih =>
    intro r
    simp only [infoWindowsLoop, GetRateLimit_fst]
    cases h : (RedisClient.GetRateLimit r apiKey (RateLimiter.getWindowKey now w.window)).2 with
    | error e => rfl
    | ok c =>
      cases h2 : (infoWindowsLoop r now apiKey t).2 with
      | error e => simpa using ih r
      | ok l => simpa using ih r

theorem infoWindowsLoop_names (now : GoTime) (apiKey : String) :
    ∀ (ws : List WindowSpec) (r : Redis) (l : List (String × WindowInfo)),
      (infoWindowsLoop r now apiKey ws).2 = .ok l →
      l.map Prod.fst = ws.map WindowSpec.name := by
  intro ws
  induction ws with
  | nil =>
    intro r l h
    simp only [infoWindowsLoop] at h
    cases h
    rfl
  | cons w t ih =>
    intro r l h
    simp only [infoWindowsLoop] at h
    cases hr : (RedisClient.GetRateLimit r apiKey (RateLimiter.getWindowKey now w.window)).2 with
    | error e => rw [hr] at h; cases h
    | ok c =>
      rw [hr] at h
      cases h2 : (infoWindowsLoop r now apiKey t).2 with
      | error e => rw [GetRateLimit_fst, h2] at h; cases h
      | ok l2 =>
        rw [GetRateLimit_fst, h2] at h
        cases h
        simp only [List.map_cons, List.map]
        rw [ih r l2 h2]

/-- C9: `CheckRateLimit` and `GetRateLimitInfo` are read-only — on every
path (allow, deny, error) the store state they return is exactly the input
state: no counter is created or incremented, no expiry touched.
`GetRateLimitInfo` additionally produces no verdict: on success it reports
an entry for every one of the three windows (it never stops early to
deny). -/
theorem C9_read_only (cfg : RateLimitConfig) (r : Redis) (now : GoTime)
    (apiKey : String) :
    (RateLimiter.CheckRateLimit cfg r now apiKey).1 = r
    ∧ (RateLimiter.GetRateLimitInfo cfg r now apiKey).1 = r
    ∧ (∀ info, (RateLimiter.GetRateLimitInfo cfg r now apiKey).2 = .ok info →
        info.rateLimits.map Prod.fst = ["minute", "hour", "day"]) := by
  refine ⟨?_, ?_, ?_⟩
  · simp only [RateLimiter.CheckRateLimit]
    cases hq : (RedisClient.GetMonthlyQuota r now apiKey).2 with
    | error e => rfl
    | ok q =>
      by_cases hge : q ≥ cfg.monthlyQuota
      · simp only [ge_iff_le, hge, if_pos]
        rfl
      · simp only [ge_iff_le, not_le.mpr (not_le.mp hge), if_false]
        cases hw : (checkWindowsLoop (RedisClient.GetMonthlyQuota r now apiKey).1 now apiKey
            q cfg.monthlyQuota (windowsFor cfg)).2 with
        | error e =>
          simp only [checkWindowsLoop_fst, GetMonthlyQuota_fst]
        | ok v =>
          cases v with
          | none => simp only [checkWindowsLoop_fst, GetMonthlyQuota_fst]
          | some verdict => simp only [checkWindowsLoop_fst, GetMonthlyQuota_fst]
  · simp only [RateLimiter.GetRateLimitInfo]
    cases hq : (RedisClient.GetMonthlyQuota r now apiKey).2 with
    | error e => rfl
    | ok q =>
      cases hw : (infoWindowsLoop (RedisClient.GetMonthlyQuota r now apiKey).1 now apiKey
          (windowsFor cfg)).2 with
      | error e => simp only [infoWindowsLoop_fst, GetMonthlyQuota_fst]
      | ok l => simp only [infoWindowsLoop_fst, GetMonthlyQuota_fst]
  · intro info h
    simp only [RateLimiter.GetRateLimitInfo] at h
    cases hq : (RedisClient.GetMonthlyQuota r now apiKey).2 with
    | error e => rw [hq] at h; cases h
    | ok q =>
      rw [hq] at h
      cases hw : (infoWindowsLoop (RedisClient.GetMonthlyQuota r now apiKey).1 now apiKey
          (windowsFor cfg)).2 with
      | error e => rw [hw] at h; cases h
      | ok l =>
        rw [hw] at h
        cases h
        exact infoWindowsLoop_names now apiKey (windowsFor cfg) _ l hw

/-- Closed witness for C9 on the empty store: both operations hand the
store back unchanged and the snapshot lists all three windows. -/
theorem C9_read_only_witness :
    (RateLimiter.CheckRateLimit cfgEx rExEmpty nowEx "k").1 = rExEmpty
    ∧ (RateLimiter.GetRateLimitInfo cfgEx rExEmpty nowEx "k").1 = rExEmpty
    ∧ (RateLimitInfo.mk 0 10000
        [("minute", ⟨0, 2, 2, RateLimiter.getWindowResetTime nowEx 60⟩),
         ("hour", ⟨0, 100, 100, RateLimiter.getWindowResetTime nowEx 3600⟩),
         ("day", ⟨0, 1000, 1000, RateLimiter.getWindowResetTime nowEx 86400⟩)]
       ).rateLimits.map Prod.fst = ["minute", "hour", "day"] :=
  ⟨(C9_read_only cfgEx rExEmpty nowEx "k").1,
   (C9_read_only cfgEx rExEmpty nowEx "k").2.1,
   (C9_read_only cfgEx rExEmpty nowEx "k").2.2 _ rfl⟩

/-! ### C10 -/

/-- C10: `ValidateAPIKey` rejects exactly the empty key: it returns
`(false, nil)` on the empty string and `(true, nil)` on every non-empty
string, never errors, never mutates the store, and its result does not
depend on the store at all (the stored set of valid keys is not
consulted); consequently the authentication middleware accepts every
non-empty presented key as the caller identity, and rejects only the
missing-key case. -/
theorem C10_validate_any_nonempty (r r' : Redis) (k : String) :
    (k = "" → RedisClient.ValidateAPIKey r k = (r, .ok false))
    ∧ (k ≠ "" → RedisClient.ValidateAPIKey r k = (r, .ok true))
    ∧ (RedisClient.ValidateAPIKey r k).2 = (RedisClient.ValidateAPIKey r' k).2
    ∧ (k ≠ "" → AuthMiddleware.Authenticate r k = .authenticated k)
    ∧ (k = "" → AuthMiddleware.Authenticate r k = .missingKey) := by
  refine ⟨?_, ?_, ?_, ?_, ?_⟩
  · intro h
    simp [RedisClient.ValidateAPIKey, h]
  · intro h
    simp [RedisClient.ValidateAPIKey, h]
  · by_cases h : k = "" <;> simp [RedisClient.ValidateAPIKey, h]
  · intro h
    simp [AuthMiddleware.Authenticate, RedisClient.ValidateAPIKey, h]
  · intro h
    simp [AuthMiddleware.Authenticate, h]

/-- Closed witness for C10: a non-empty key is validated and
authenticated, the empty key is rejected as missing. -/
theorem C10_validate_any_nonempty_witness :
    RedisClient.ValidateAPIKey rExEmpty "secret" = (rExEmpty, .ok true)
    ∧ AuthMiddleware.Authenticate rExEmpty "secret" = .authenticated "secret"
    ∧ AuthMiddleware.Authenticate rExEmpty "" = .missingKey :=
  ⟨(C10_validate_any_nonempty rExEmpty rExQuota "secret").2.1 (by decide),
   (C10_validate_any_nonempty rExEmpty rExQuota "secret").2.2.2.1 (by decide),
   (C10_validate_any_nonempty rExEmpty rExQuota "").2.2.2.2 rfl⟩

/-! ### C7 -/

/-- The minute branch of `getWindowKey`:
`fmt.Sprintf("%d-%02d-%02d-%02d-%02d", Y, M, D, h, m)`. -/
theorem getWindowKey_minute (t : GoTime) :
    RateLimiter.getWindowKey t 60 =
      Nat.repr t.year ++ "-" ++ pad2 t.month ++ "-" ++ pad2 t.day ++ "-" ++
        pad2 t.hour ++ "-" ++ pad2 t.minute := rfl

theorem daysInMonth_le (y m : Nat) : daysInMonth y m ≤ 31 := by
  unfold daysInMonth
  by_cases h2 : m = 2
  · simp only [h2, if_pos]
    split <;> omega
  · rw [if_neg h2]
    rcases Nat.lt_or_ge (m - 1) 12 with hlt | hge
    · interval_cases h : (m - 1) <;> decide
    · rw [List.getD_eq_default _ _ (by simpa using hge)]
      omega

/-- Keys of distinct calendar minutes are distinct: the formatted fields
can be peeled back off the key string. -/
theorem minuteKey_inj (t₁ t₂ : GoTime) (h₁ : t₁.Valid) (h₂ : t₂.Valid)
    (h : RateLimiter.getWindowKey t₁ 60 = RateLimiter.getWindowKey t₂ 60) :
    t₁.sameMinute t₂ := by
  obtain ⟨-, -, hmoB1, -, hdB1, hhB1, hmiB1, -⟩ := h₁
  obtain ⟨-, -, hmoB2, -, hdB2, hhB2, hmiB2, -⟩ := h₂
  have dm1 := daysInMonth_le t₁.year t₁.month
  have dm2 := daysInMonth_le t₂.year t₂.month
  have hmo1 : t₁.month < 100 := by omega
  have hmo2 : t₂.month < 100 := by omega
  have hd1 : t₁.day < 100 := by omega
  have hd2 : t₂.day < 100 := by omega
  have hh1 : t₁.hour < 100 := by omega
  have hh2 : t₂.hour < 100 := by omega
  have hmi1 : t₁.minute < 100 := by omega
  have hmi2 : t₂.minute < 100 := by omega
  rw [getWindowKey_minute, getWindowKey_minute] at h
  have hdash : ("-" : String).data = ['-'] := rfl
  have hdata := congrArg String.data h
  simp only [String.data_append, hdash] at hdata
  obtain ⟨h8, hmi⟩ := pad2_peel hmi1 hmi2 hdata
  have h7 := dash_peel h8
  obtain ⟨h6, hh⟩ := pad2_peel hh1 hh2 h7
  have h5 := dash_peel h6
  obtain ⟨h4, hd⟩ := pad2_peel hd1 hd2 h5
  have h3 := dash_peel h4
  obtain ⟨h2, hmo⟩ := pad2_peel hmo1 hmo2 h3
  have h1 := dash_peel h2
  have hy : t₁.year = t₂.year := by
    apply digitsOf_inj
    rw [← natRepr_eq_digitsOf, ← natRepr_eq_digitsOf]
    exact h1
  exact ⟨hy, hmo, hd, hh, hmi⟩

/-- C7: two instants in the same calendar minute derive the same minute
bucket key and the same minute reset time; instants in different calendar
minutes derive different minute keys; and the reset instants of the
minute, hour and day windows are the starts of the next calendar minute,
hour and day respectively (lower fields zeroed).  The minute key is built
from exactly `(year, month, day, hour, minute)` of `now`. -/
theorem C7_bucket_alignment (t₁ t₂ : GoTime) (h₁ : t₁.Valid) (h₂ : t₂.Valid) :
    (t₁.sameMinute t₂ →
      RateLimiter.getWindowKey t₁ 60 = RateLimiter.getWindowKey t₂ 60 ∧
        RateLimiter.getWindowResetTime t₁ 60 = RateLimiter.getWindowResetTime t₂ 60)
    ∧ (¬ t₁.sameMinute t₂ →
        RateLimiter.getWindowKey t₁ 60 ≠ RateLimiter.getWindowKey t₂ 60)
    ∧ RateLimiter.getWindowResetTime t₁ 60 = specStartOfMinute t₁ + 60
    ∧ RateLimiter.getWindowResetTime t₁ 3600 = specStartOfHour t₁ + 3600
    ∧ RateLimiter.getWindowResetTime t₁ 86400 = specStartOfDay t₁ + 86400
    ∧ RateLimiter.getWindowKey t₁ 60 =
        Nat.repr t₁.year ++ "-" ++ pad2 t₁.month ++ "-" ++ pad2 t₁.day ++ "-" ++
          pad2 t₁.hour ++ "-" ++ pad2 t₁.minute := by
  refine ⟨?_, ?_, minuteReset_eq_spec t₁, hourReset_eq_spec t₁,
    dayReset_eq_spec t₁ h₁.2.2.2.1, getWindowKey_minute t₁⟩
  · intro hs
    obtain ⟨hy, hmo, hd, hh, hmi⟩ := hs
    constructor
    · rw [getWindowKey_minute, getWindowKey_minute, hy, hmo, hd, hh, hmi]
    · simp only [RateLimiter.getWindowResetTime, if_pos]
      rw [hy, hmo, hd, hh, hmi]
  · intro hs hk
    exact hs (minuteKey_inj t₁ t₂ h₁ h₂ hk)

/-- 2024-01-15 12:30:07 — same calendar minute as `nowEx`. -/
def nowExSameMin : GoTime :=
  { year := 2024, month := 1, day := 15, hour := 12, minute := 30, sec := 7 }

/-- 2024-01-15 12:31:00 — the next calendar minute. -/
def nowExNextMin : GoTime :=
  { year := 2024, month := 1, day := 15, hour := 12, minute := 31, sec := 0 }

/-- Closed witness for C7: same minute gives identical key and reset,
crossing the minute boundary changes the key. -/
theorem C7_bucket_alignment_witness :
    (RateLimiter.getWindowKey nowExSameMin 60 = RateLimiter.getWindowKey nowEx 60 ∧
      RateLimiter.getWindowResetTime nowExSameMin 60 =
        RateLimiter.getWindowResetTime nowEx 60)
    ∧ RateLimiter.getWindowKey nowEx 60 ≠ RateLimiter.getWindowKey nowExNextMin 60 :=
  ⟨(C7_bucket_alignment nowExSameMin nowEx (by decide) (by decide)).1 (by decide),
   (C7_bucket_alignment nowEx nowExNextMin (by decide) (by decide)).2.1 (by decide)⟩
